import Mathlib

/-!
Verification of the Easy21 environment (easy21.py) and its Monte Carlo
control loop (monte-carlo.py).

Randomness is modelled by passing the card draws explicitly: a draw stream
is a function `Nat → Int`, and `isCard c` says that `c` is a value the
source's `draw()` can produce (magnitude 1..10, either sign).  The `while`
loops of the source are modelled with explicit fuel; a loop that does not
finish within its fuel returns `none`.
-/

namespace Easy21

/-- A value the source's `draw()` can return: a card of value 1..10, black
(positive, probability 2/3) or red (negative, probability 1/3). -/
def isCard (c : Int) : Prop :=
  1 ≤ c.natAbs ∧ c.natAbs ≤ 10

instance : DecidablePred isCard := fun c =>
  decidable_of_iff (1 ≤ c.natAbs ∧ c.natAbs ≤ 10) Iff.rfl

/-- The Easy21 state (easy21.py, `class State`): the player's running sum,
the dealer's running sum and the terminated flag. -/
structure State where
  player : Int
  dealer : Int
  terminated : Bool
deriving DecidableEq, Repr

/-- The function `State.new` (easy21.py): the player and the dealer each start with a
black (positive) card, modelled by `abs(draw())`. -/
def State.new (c1 c2 : Int) : State :=
  { player := (c1.natAbs : Int), dealer := (c2.natAbs : Int), terminated := false }

/-- The method `State.hit` (easy21.py): a no-op on terminated states; otherwise the
drawn card `c` is added to the player's sum, and the state is terminated
exactly when the new sum leaves [1, 21] (the player goes bust). -/
def State.hit (s : State) (c : Int) : State :=
  if s.terminated then s
  else
    let p := s.player + c
    { player := p, dealer := s.dealer, terminated := decide (p < 1 ∨ 21 < p) }

/-- The dealer play-out loop inside `State.stick` (easy21.py): starting from
sum `d`, add `cards i`, `cards (i+1)`, … while `1 ≤ d < 17`; `fuel` bounds
the number of iterations and `none` means the loop did not finish within
`fuel` draws. -/
def dealerPlay (cards : Nat → Int) : Nat → Nat → Int → Option Int
  | 0, _, d => if 1 ≤ d ∧ d < 17 then none else some d
  | fuel + 1, i, d =>
      if 1 ≤ d ∧ d < 17 then dealerPlay cards fuel (i + 1) (d + cards i)
      else some d

/-- The method `State.stick` (easy21.py): a no-op on terminated states; otherwise the
dealer plays out its fixed sub-policy starting at index `i` of the draw
stream, and the result is terminal with the player's sum unchanged. -/
def State.stick (s : State) (cards : Nat → Int) (i fuel : Nat) : Option State :=
  if s.terminated then some s
  else (dealerPlay cards fuel i s.dealer).map fun d =>
    { player := s.player, dealer := d, terminated := true }

/-- The method `State.value` (easy21.py): 0 for non-terminal states; for terminal
states −1 if the player busted (sum outside [1, 21]), else +1 if the dealer
busted, else the sign of `player − dealer`.  The source's final guard
`if self.player < self.dealer` is exhaustive at the point it is reached
(the two earlier comparisons failed), so it is rendered as the final
`else`. -/
def State.value (s : State) : Int :=
  if s.terminated = false then 0
  else if s.player < 1 ∨ 21 < s.player then -1
  else if s.dealer < 1 ∨ 21 < s.dealer then 1
  else if s.dealer < s.player then 1
  else if s.player = s.dealer then 0
  else -1

/-- A Python runtime value, as far as `step`'s dynamic attribute dispatch
can produce one: an int field, a bool (the terminated field or the class
attribute holding its default), a `State` instance, a bound method of a
`State` instance, a plain function (a method looked up on the class, or the
static method `new`), or the class object `State` itself (reached through
the inherited attribute `__class__`). -/
inductive PyVal where
  | int (n : Int)
  | bool (b : Bool)
  | state (s : State)
  | method (name : String) (self : State)
  | func (name : String)
  | cls
deriving DecidableEq, Repr

/-- A Python exception: `attributeError t a` is the `AttributeError` raised
when the attribute named `a` is looked up on an object of type `t`. -/
inductive PyError where
  | attributeError (objType : String) (attrName : String)
deriving DecidableEq, Repr

/-- The exception class name of a failed computation, if it failed.  The
source raises only `AttributeError`; the spec's `InvalidAction` class is
never defined or raised by the code, so no result ever carries it. -/
def errClass {α : Type} : Except PyError α → Option String
  | .error (.attributeError _ _) => some "AttributeError"
  | .ok _ => none

/-- Python attribute lookup on a `State` instance: the dataclass fields,
the methods defined in `class State` (easy21.py), and the inherited
attribute `__class__`, which yields the class object `State` — the one
inherited name through which `step`'s second lookup (`.value`) also
succeeds, because the class carries the plain function `State.value`.
Every other name is folded into the failing case: for a name that is no
attribute at all this is exactly Python's `AttributeError` from `getattr`;
for the remaining inherited attributes (`__init__`, `__repr__`, `__dict__`,
`__doc__`, `__dataclass_fields__`, …) real Python succeeds here but none of
those values carries a `value` attribute, so `step`'s second lookup raises
`AttributeError` just the same — the fold preserves `step`'s observable
outcome (the exception class) for every name. -/
def pyGetattrState (s : State) (name : String) : Except PyError PyVal :=
  if name = "player" then .ok (.int s.player)
  else if name = "dealer" then .ok (.int s.dealer)
  else if name = "terminated" then .ok (.bool s.terminated)
  else if name = "new" then .ok (.func "new")
  else if name = "__class__" then .ok .cls
  else if name = "hit" ∨ name = "stick" ∨ name = "value" then .ok (.method name s)
  else .error (.attributeError "State" name)

/-- Python attribute lookup on the class object `State` itself: the methods
are plain (unbound) functions, the static method `new` is a function, and
the dataclass field `terminated` keeps its default `False` as a class
attribute; `player` and `dealer` have no defaults, so the class does not
carry them. -/
def pyGetattrClassState (name : String) : Except PyError PyVal :=
  if name = "value" then .ok (.func "State.value")
  else if name = "hit" then .ok (.func "State.hit")
  else if name = "stick" then .ok (.func "State.stick")
  else if name = "new" then .ok (.func "State.new")
  else if name = "terminated" then .ok (.bool false)
  else .error (.attributeError "type" name)

/-- Python attribute lookup on any value `step` can be holding: `State`
instances and the class object `State` carry the attributes above; ints,
bools, bound methods and plain functions carry none of them (a bound method
forwards attribute lookups to its underlying function, which also has none
of these names). -/
def pyGetattr (v : PyVal) (name : String) : Except PyError PyVal :=
  match v with
  | .state s => pyGetattrState s name
  | .cls => pyGetattrClassState name
  | .int _ => .error (.attributeError "int" name)
  | .bool _ => .error (.attributeError "bool" name)
  | .method _ _ => .error (.attributeError "method" name)
  | .func _ => .error (.attributeError "function" name)

/-- The function `step` exactly as written in easy21.py: on a terminated state it returns
`(state, 0)`; otherwise `state = getattr(state, action)` binds the attribute
itself — the method is NOT called — and `return state, state.value` is
another plain attribute access on whatever `getattr` produced. -/
def stepPy (s : State) (action : String) : Except PyError (PyVal × PyVal) :=
  if s.terminated then .ok (.state s, .int 0)
  else
    match pyGetattr (.state s) action with
    | .error e => .error e
    | .ok st =>
      match pyGetattr st "value" with
      | .error e => .error e
      | .ok v => .ok (st, v)

/-- The two Easy21 actions (`actions = ("hit", "stick")` in easy21.py). -/
inductive Action where
  | hit
  | stick
deriving DecidableEq, Repr

/-- Increment a defaultdict-style counter at one key (`N[k] += 1`,
monte-carlo.py). -/
def bump {α : Type} [DecidableEq α] (f : α → Nat) (k : α) : α → Nat :=
  fun x => if x = k then f x + 1 else f x

/-- The function `alpha` from monte-carlo.py: `1 / N[(state, action)]`; `none` models the
`ZeroDivisionError` Python raises when the visit count is still 0. -/
def alpha (nsa : State × Action → Nat) (p : State × Action) : Option ℚ :=
  if nsa p = 0 then none else some (1 / (nsa p : ℚ))

/-- Modelled from the spec: the body of `update` in monte-carlo.py is `pass`
(unimplemented), and section 4.2 of the spec specifies the missing body as:
for every `(state, action)` pair visited in the trajectory, in order,
`Q(state,action) += alpha(state,action) * (final_reward - Q(state,action))`.
A `none` result propagates a `ZeroDivisionError` from `alpha`. -/
def updateSpec (nsa : State × Action → Nat) (r : ℚ) :
    List (State × Action) → ((State × Action) → ℚ) → Option ((State × Action) → ℚ)
  | [], q => some q
  | p :: rest, q =>
    match alpha nsa p with
    | none => none
    | some a => updateSpec nsa r rest (fun x => if x = p then q p + a * (r - q p) else q x)

/-- The episode loop of `trial` (monte-carlo.py): while the current state is
not terminal, take the next action from the `acts` stream (modelling the
random choice made by `next_action`), increment `N[state]` and
`N[(state, action)]`, then transition.  The transition is `step`'s intended
dispatch to `hit`/`stick` (the `getattr` slip inside `step` itself is
analysed separately through `stepPy`); a `stick` iteration always ends the
episode because its successor state is terminal.  The first component of
the result is the visit history — the `(state, action)` pair of each loop
iteration, in order; the other two are the final counters.  `fuel` bounds
the number of iterations. -/
def runLoop (acts : Nat → Action) (cards : Nat → Int) :
    Nat → State → Nat → (State → Nat) → ((State × Action) → Nat) →
    List (State × Action) × (State → Nat) × ((State × Action) → Nat)
  | 0, _, _, ns, nsa => ([], ns, nsa)
  | fuel + 1, s, i, ns, nsa =>
    if s.terminated then ([], ns, nsa)
    else
      match acts i with
      | Action.stick =>
          ([(s, Action.stick)], bump ns s, bump nsa (s, Action.stick))
      | Action.hit =>
          let out := runLoop acts cards fuel (s.hit (cards i)) (i + 1)
            (bump ns s) (bump nsa (s, Action.hit))
          ((s, Action.hit) :: out.1, out.2.1, out.2.2)

/-- The `states` accumulator of `trial` exactly as written in
monte-carlo.py: initialised before the loop, threaded through it, and never
appended to — the loop body contains no statement that modifies it. -/
def trialStatesLoop (acts : Nat → Action) (cards : Nat → Int) :
    Nat → State → Nat → List State → List State
  | 0, _, _, acc => acc
  | fuel + 1, s, i, acc =>
    if s.terminated then acc
    else
      match acts i with
      | Action.stick => acc
      | Action.hit => trialStatesLoop acts cards fuel (s.hit (cards i)) (i + 1) acc

/-- The trajectory `trial` passes to `update`: the accumulator after the
loop, starting from `[state]` with `state` the initial state. -/
def trialStates (acts : Nat → Action) (cards : Nat → Int) (fuel : Nat) (s0 : State) :
    List State :=
  trialStatesLoop acts cards fuel s0 0 [s0]

/-- States reachable by the program: an initial deal with legal cards, then
`hit` and `stick` transitions with legal draws.  (`step` contributes no
further states: on a terminated state it returns the state unchanged.) -/
inductive Reachable : State → Prop where
  | new (c1 c2 : Int) : isCard c1 → isCard c2 → Reachable (State.new c1 c2)
  | hit (s : State) (c : Int) : Reachable s → isCard c → Reachable (s.hit c)
  | stick (s t : State) (cards : Nat → Int) (i fuel : Nat) :
      Reachable s → s.stick cards i fuel = some t → Reachable t

/-- Whether the dealer play-out inside `stick` finishes within some finite
number of draws. -/
def stickTerminates (s : State) (cards : Nat → Int) : Prop :=
  ∃ fuel, (s.stick cards 0 fuel).isSome

/-- A draw stream alternating +1, −1: every draw is a legal card. -/
def altCards : Nat → Int :=
  fun i => if i % 2 = 0 then 1 else -1

/-- Card stream +5, −5, +10, +10, …: every draw is a legal card, and the
first two hits cancel, returning the player to the starting sum. -/
def cexCards : Nat → Int :=
  fun i => if i = 0 then 5 else if i = 1 then -5 else 10

/-- Action stream: hit on the first three steps, then stick. -/
def cexActs : Nat → Action :=
  fun i => if i < 3 then Action.hit else Action.stick

/-- Action stream for a two-step episode: hit once, then stick. -/
def twoStepActs : Nat → Action :=
  fun i => if i = 0 then Action.hit else Action.stick

/-- Constant card stream drawing +5 every time. -/
def fiveCards : Nat → Int :=
  fun _ => 5

/-- Constant card stream drawing +10 every time. -/
def tenCards : Nat → Int :=
  fun _ => 10

/-- The all-zero counter used as the fresh `defaultdict(int)` state. -/
def zeroS : State → Nat := fun _ => 0

/-- The all-zero state-action counter (fresh `defaultdict(int)`). -/
def zeroSA : State × Action → Nat := fun _ => 0

/-- A counter giving every state-action pair two visits. -/
def twoCount : State × Action → Nat := fun _ => 2

/-- The all-zero action-value estimate (fresh `defaultdict(float)`). -/
def zeroQ : State × Action → ℚ := fun _ => 0

end Easy21

namespace Easy21

/-- Every successful result of `stick` is a terminated state. -/
theorem stick_terminated {s t : State} {cards : Nat → Int} {i fuel : Nat}
    (h : s.stick cards i fuel = some t) : t.terminated = true := by
  by_cases hs : s.terminated
  · unfold State.stick at h
    rw [if_pos hs] at h
    cases h
    exact hs
  · unfold State.stick at h
    rw [if_neg hs] at h
    obtain ⟨d, _, ht⟩ := Option.map_eq_some'.mp h
    rw [← ht]

/-- The dealer loop only returns a sum outside the drawing range [1, 17). -/
theorem dealerPlay_out {cards : Nat → Int} : ∀ {fuel i : Nat} {d e : Int},
    dealerPlay cards fuel i d = some e → ¬ (1 ≤ e ∧ e < 17) := by
  intro fuel
  induction fuel with
  | zero =>
    intro i d e h
    simp only [dealerPlay] at h
    split at h
    · cases h
    · cases h
      assumption
  | succ fuel ih =>
    intro i d e h
    simp only [dealerPlay] at h
    split at h
    · exact ih h
    · cases h
      assumption

/-- Claim C4: on a non-terminal state, whenever `stick` returns, the result
is terminal, the player's sum is unchanged, and the dealer's sum is outside
the drawing range: at least 17 or below 1 — the dealer sub-policy never
stops while `1 ≤ dealer_sum < 17`. -/
theorem C4_stick_post (s t : State) (cards : Nat → Int) (i fuel : Nat)
    (hs : s.terminated = false) (h : s.stick cards i fuel = some t) :
    t.terminated = true ∧ t.player = s.player ∧ (17 ≤ t.dealer ∨ t.dealer < 1) := by
  unfold State.stick at h
  rw [if_neg (by simp [hs])] at h
  obtain ⟨d, hd, ht⟩ := Option.map_eq_some'.mp h
  have hout := dealerPlay_out hd
  subst ht
  refine ⟨rfl, rfl, ?_⟩
  show 17 ≤ d ∨ d < 1
  omega

/-- Witness for C4 at the concrete input `State(20, 10)` with an all-ten
draw stream and fuel 2. -/
theorem C4_stick_post_witness :
    ({ player := 20, dealer := 20, terminated := true } : State).terminated = true ∧
    ({ player := 20, dealer := 20, terminated := true } : State).player =
      ({ player := 20, dealer := 10, terminated := false } : State).player ∧
    (17 ≤ ({ player := 20, dealer := 20, terminated := true } : State).dealer ∨
      ({ player := 20, dealer := 20, terminated := true } : State).dealer < 1) :=
  C4_stick_post { player := 20, dealer := 10, terminated := false }
    { player := 20, dealer := 20, terminated := true } tenCards 0 2 rfl (by decide)

/-- Claim C5: `value` is 0 on non-terminal states; on terminal states it is
−1 when the player's sum is outside [1, 21], else +1 when the dealer's sum
is outside [1, 21], else the comparison of the two sums; and it always lies
in {−1, 0, +1}. -/
theorem C5_value_cases (s : State) :
    (s.terminated = false → s.value = 0) ∧
    (s.terminated = true → (s.player < 1 ∨ 21 < s.player) → s.value = -1) ∧
    (s.terminated = true → 1 ≤ s.player → s.player ≤ 21 →
      (s.dealer < 1 ∨ 21 < s.dealer) → s.value = 1) ∧
    (s.terminated = true → 1 ≤ s.player → s.player ≤ 21 → 1 ≤ s.dealer → s.dealer ≤ 21 →
      (s.dealer < s.player → s.value = 1) ∧ (s.player = s.dealer → s.value = 0) ∧
      (s.player < s.dealer → s.value = -1)) ∧
    (s.value = -1 ∨ s.value = 0 ∨ s.value = 1) := by
  obtain ⟨p, d, t⟩ := s
  simp only [State.value]
  cases t
  · simp
  · refine ⟨fun h => absurd h (by simp), fun _ h => ?_, fun _ h1 h2 h3 => ?_,
      fun _ h1 h2 h3 h4 => ⟨fun h5 => ?_, fun h5 => ?_, fun h5 => ?_⟩, ?_⟩ <;>
    · simp only [Bool.true_eq_false, if_false]
      split_ifs <;> omega

/-- Witness for C5 at a concrete terminal player-bust state and a concrete
terminal dealer-bust state. -/
theorem C5_value_cases_witness :
    State.value { player := 22, dealer := 10, terminated := true } = -1 :=
  (C5_value_cases { player := 22, dealer := 10, terminated := true }).2.1 rfl
    (by norm_num)

end Easy21

namespace Easy21

/-- Claim C1 (code bug): `step` as written works on terminated states, but
on a non-terminal state `getattr(state, action)` binds the method without
calling it and the following `state.value` attribute access raises
`AttributeError` — it never produces `(next_state, value(next_state))`. -/
theorem C1_step_as_written :
    stepPy { player := 22, dealer := 10, terminated := true } "hit" =
      Except.ok (PyVal.state { player := 22, dealer := 10, terminated := true }, PyVal.int 0) ∧
    stepPy { player := 10, dealer := 5, terminated := false } "hit" =
      Except.error (PyError.attributeError "method" "value") ∧
    stepPy { player := 10, dealer := 5, terminated := false } "stick" =
      Except.error (PyError.attributeError "method" "value") := by
  refine ⟨rfl, rfl, rfl⟩

/-- No result of the embedded `step` ever carries the `InvalidAction`
exception class the spec asks for: the program only raises
`AttributeError`. -/
theorem errClass_ne_invalid {α : Type} (r : Except PyError α) :
    errClass r ≠ some "InvalidAction" := by
  cases r with
  | ok _ => simp [errClass]
  | error e =>
    cases e
    simp [errClass]

/-- Claim C10 (counterexample): on a non-terminal state, the unrecognized
action "foo" makes `step` fail with an `AttributeError` — not the
`InvalidAction` error class the claim names — and the action "__class__"
makes `step` silently return a result (the class object paired with the
plain function `State.value`), contradicting "never silently returns". -/
theorem C10_attribute_error_cex :
    errClass (stepPy { player := 10, dealer := 5, terminated := false } "foo") =
      some "AttributeError" ∧
    (some "AttributeError" : Option String) ≠ some "InvalidAction" ∧
    stepPy { player := 10, dealer := 5, terminated := false } "__class__" =
      Except.ok (PyVal.cls, PyVal.func "State.value") := by
  refine ⟨rfl, by decide, rfl⟩

/-- Claim C10 (amended): for every non-terminal state and every action value
outside {hit, stick}, `step` never fails with an `InvalidAction` error (the
code defines no such class); it does not always fail either: for the
inherited attribute name `__class__` both of `step`'s lookups succeed and
it silently returns the class object paired with the plain function
`State.value`, while for every other action value it fails with an
`AttributeError`. -/
theorem C10_unknown_action_behaviour (s : State) (a : String)
    (hs : s.terminated = false) (h1 : a ≠ "hit") (h2 : a ≠ "stick") :
    errClass (stepPy s a) ≠ some "InvalidAction" ∧
    (a = "__class__" →
      stepPy s a = Except.ok (PyVal.cls, PyVal.func "State.value")) ∧
    (a ≠ "__class__" →
      ∃ t n, stepPy s a = Except.error (PyError.attributeError t n)) := by
  refine ⟨errClass_ne_invalid _, ?_, ?_⟩
  · intro hcl
    subst hcl
    simp [stepPy, pyGetattr, pyGetattrState, pyGetattrClassState, hs]
  · intro hcl
    by_cases hp : a = "player"
    · exact ⟨"int", "value", by simp [stepPy, pyGetattr, pyGetattrState, hs, hp]⟩
    by_cases hd : a = "dealer"
    · exact ⟨"int", "value", by simp [stepPy, pyGetattr, pyGetattrState, hs, hp, hd]⟩
    by_cases ht : a = "terminated"
    · exact ⟨"bool", "value", by simp [stepPy, pyGetattr, pyGetattrState, hs, hp, hd, ht]⟩
    by_cases hn : a = "new"
    · exact ⟨"function", "value",
        by simp [stepPy, pyGetattr, pyGetattrState, hs, hp, hd, ht, hn]⟩
    by_cases hv : a = "value"
    · exact ⟨"method", "value",
        by simp [stepPy, pyGetattr, pyGetattrState, hs, hp, hd, ht, hn, hv]⟩
    · exact ⟨"State", a,
        by simp [stepPy, pyGetattr, pyGetattrState, hs, hp, hd, ht, hn, hv, h1, h2, hcl]⟩

/-- Witness for the amended C10 at the concrete state `State(10, 5)`: the
unrecognized action "foo" fails with `AttributeError`, and the action
"__class__" silently returns a result. -/
theorem C10_unknown_action_behaviour_witness :
    (∃ t n, stepPy { player := 10, dealer := 5, terminated := false } "foo" =
      Except.error (PyError.attributeError t n)) ∧
    stepPy { player := 10, dealer := 5, terminated := false } "__class__" =
      Except.ok (PyVal.cls, PyVal.func "State.value") :=
  ⟨(C10_unknown_action_behaviour { player := 10, dealer := 5, terminated := false }
      "foo" rfl (by decide) (by decide)).2.2 (by decide),
   (C10_unknown_action_behaviour { player := 10, dealer := 5, terminated := false }
      "__class__" rfl (by decide) (by decide)).2.1 rfl⟩

end Easy21

namespace Easy21

/-- On the alternating +1/−1 stream, the dealer sum oscillates between 10
(at even stream positions) and 11 (at odd positions), so the play-out loop
never finishes, whatever its fuel. -/
theorem altCards_loop (fuel : Nat) : ∀ i : Nat,
    dealerPlay altCards fuel (2 * i) 10 = none ∧
    dealerPlay altCards fuel (2 * i + 1) 11 = none := by
  induction fuel with
  | zero =>
    intro i
    constructor <;> simp [dealerPlay]
  | succ fuel ih =>
    intro i
    have h0 : altCards (2 * i) = 1 := by
      have : (2 * i) % 2 = 0 := by omega
      simp [altCards, this]
    have h1 : altCards (2 * i + 1) = -1 := by
      have : (2 * i + 1) % 2 = 1 := by omega
      simp [altCards, this]
    have e0 : (10 : Int) + altCards (2 * i) = 11 := by rw [h0]; norm_num
    have e1 : (11 : Int) + altCards (2 * i + 1) = 10 := by rw [h1]; norm_num
    have e2 : 2 * i + 1 + 1 = 2 * (i + 1) := by omega
    constructor
    · have h2 := (ih i).2
      simp only [dealerPlay]
      rw [if_pos (by norm_num : (1 : Int) ≤ 10 ∧ (10 : Int) < 17), e0]
      exact h2
    · have h3 := (ih (i + 1)).1
      simp only [dealerPlay]
      rw [if_pos (by norm_num : (1 : Int) ≤ 11 ∧ (11 : Int) < 17), e1, e2]
      exact h3

/-- Claim C9 (counterexample): the dealer play-out loop does not terminate
for every infinite sequence of legal draws — from `State(20, 10)`, the
alternating +1/−1 stream keeps the dealer inside [1, 17) forever, so
`stick` never returns however much fuel it is given. -/
theorem C9_nontermination_cex :
    ¬ stickTerminates { player := 20, dealer := 10, terminated := false } altCards := by
  rintro ⟨fuel, hf⟩
  have h := (altCards_loop fuel 0).1
  norm_num at h
  simp [State.stick, h] at hf

/-- If the draw stream produces two consecutive tens while the dealer is
still drawing, the play-out loop finishes: from any sum in [1, 17), one ten
either ends the loop or lands in [11, 16], whence the second ten ends it. -/
theorem dealerPlay_double_ten : ∀ (k : Nat) (cards : Nat → Int) (i : Nat) (d : Int),
    cards (i + k) = 10 → cards (i + k + 1) = 10 →
    ∃ fuel, (dealerPlay cards fuel i d).isSome := by
  intro k
  induction k with
  | zero =>
    intro cards i d h0 h1
    simp only [Nat.add_zero] at h0 h1
    by_cases hd : 1 ≤ d ∧ d < 17
    · refine ⟨2, ?_⟩
      simp only [dealerPlay, if_pos hd, h0]
      by_cases hd1 : 1 ≤ d + 10 ∧ d + 10 < 17
      · simp only [if_pos hd1, h1]
        have hout : ¬ (1 ≤ d + 10 + 10 ∧ d + 10 + 10 < 17) := by omega
        simp [hout]
      · simp [hd1]
    · exact ⟨0, by simp [dealerPlay, hd]⟩
  | succ k ih =>
    intro cards i d h0 h1
    by_cases hd : 1 ≤ d ∧ d < 17
    · obtain ⟨fuel, hf⟩ := ih cards (i + 1) (d + cards i)
        (by rw [show i + 1 + k = i + (k + 1) from by omega]; exact h0)
        (by rw [show i + 1 + k + 1 = i + (k + 1) + 1 from by omega]; exact h1)
      exact ⟨fuel + 1, by simpa [dealerPlay, if_pos hd] using hf⟩
    · exact ⟨0, by simp [dealerPlay, hd]⟩

/-- Claim C9 (amended): `stick` on a non-terminal state returns after
finitely many draws for every draw sequence that ever produces two
consecutive tens (an event of probability 1 under the card distribution) —
but, per the counterexample, not for every infinite sequence of legal
draws. -/
theorem C9_terminates_after_double_ten (s : State) (cards : Nat → Int) (k : Nat)
    (hs : s.terminated = false) (h0 : cards k = 10) (h1 : cards (k + 1) = 10) :
    ∃ fuel t, s.stick cards 0 fuel = some t := by
  obtain ⟨fuel, hf⟩ := dealerPlay_double_ten k cards 0 s.dealer
    (by simpa using h0) (by simpa using h1)
  obtain ⟨d, hd⟩ := Option.isSome_iff_exists.mp hf
  exact ⟨fuel, { player := s.player, dealer := d, terminated := true },
    by simp [State.stick, hs, hd]⟩

/-- Witness for the amended C9: from `State(20, 10)` with the all-ten
stream, `stick` returns. -/
theorem C9_terminates_after_double_ten_witness :
    ∃ fuel t, ({ player := 20, dealer := 10, terminated := false } : State).stick
      tenCards 0 fuel = some t :=
  C9_terminates_after_double_ten { player := 20, dealer := 10, terminated := false }
    tenCards 0 rfl rfl rfl

/-- Claim C6: every reachable non-terminal state has both running sums in
[1, 21]; out-of-range sums occur only in terminated states. -/
theorem C6_nonterminal_in_range (s : State) (hr : Reachable s)
    (hs : s.terminated = false) :
    1 ≤ s.player ∧ s.player ≤ 21 ∧ 1 ≤ s.dealer ∧ s.dealer ≤ 21 := by
  revert hs
  induction hr with
  | new c1 c2 h1 h2 =>
    intro _
    obtain ⟨ha, hb⟩ := h1
    obtain ⟨hc, hd⟩ := h2
    simp only [State.new]
    omega
  | hit s c hr hc ih =>
    intro hs
    by_cases ht : s.terminated
    · rw [State.hit, if_pos ht] at hs
      rw [hs] at ht
      cases ht
    · have hb := ih (by simpa using ht)
      rw [State.hit, if_neg ht] at hs ⊢
      simp only [decide_eq_false_iff_not, not_or, not_lt] at hs
      simp only []
      omega
  | stick s t cards i fuel hr hst ih =>
    intro hs
    rw [stick_terminated hst] at hs
    cases hs

end Easy21

namespace Easy21

/-- The function `updateSpec` never changes the estimate of a pair that is not in the
trajectory it processes. -/
theorem updateSpec_not_mem {nsa : State × Action → Nat} {r : ℚ} :
    ∀ {traj : List (State × Action)} {q q' : (State × Action) → ℚ}
      {x : State × Action},
      x ∉ traj → updateSpec nsa r traj q = some q' → q' x = q x := by
  intro traj
  induction traj with
  | nil =>
    intro q q' x _ h
    cases h
    rfl
  | cons p rest ih =>
    intro q q' x hx h
    cases ha : alpha nsa p <;> simp only [updateSpec, ha] at h
    · cases h
    · have hxr : x ∉ rest := fun hm => hx (List.mem_cons_of_mem p hm)
      have hxp : x ≠ p := fun he => hx (he ▸ List.mem_cons_self p rest)
      rw [ih hxr h]
      simp [hxp]

/-- Claim C2: the spec-modelled `update` moves every visited pair's estimate
by `alpha * (reward - Q)`; when the pair's post-increment visit count is
`n`, the new estimate is `(n-1)/n` times the old one plus `reward/n`. -/
theorem C2_update_incremental_mean (nsa : State × Action → Nat)
    (traj : List (State × Action)) (q : (State × Action) → ℚ) (r : ℚ)
    (hnd : traj.Nodup) (hcnt : ∀ p ∈ traj, 1 ≤ nsa p) :
    ∃ q', updateSpec nsa r traj q = some q' ∧
      ∀ p ∈ traj,
        q' p = q p + (1 / (nsa p : ℚ)) * (r - q p) ∧
        q' p = (((nsa p : ℚ) - 1) / (nsa p : ℚ)) * q p + r / (nsa p : ℚ) := by
  revert q hnd hcnt
  induction traj with
  | nil =>
    intro q _ _
    exact ⟨q, rfl, by simp⟩
  | cons p rest ih =>
    intro q hnd hcnt
    obtain ⟨hpr, hndr⟩ := List.nodup_cons.mp hnd
    have hp1 : 1 ≤ nsa p := hcnt p (List.mem_cons_self p rest)
    have hp0 : nsa p ≠ 0 := by omega
    have hpq : ((nsa p : ℚ)) ≠ 0 := Nat.cast_ne_zero.mpr hp0
    have ha : alpha nsa p = some (1 / (nsa p : ℚ)) := by simp [alpha, hp0]
    obtain ⟨q', heq, hall⟩ :=
      ih (fun x => if x = p then q p + (1 / (nsa p : ℚ)) * (r - q p) else q x)
        hndr (fun x hx => hcnt x (List.mem_cons_of_mem p hx))
    refine ⟨q', ?_, ?_⟩
    · simp only [updateSpec, ha]
      exact heq
    · intro x hx
      rcases List.mem_cons.mp hx with hxp | hxr
      · subst hxp
        have hq1 : q' x = q x + (1 / (nsa x : ℚ)) * (r - q x) := by
          rw [updateSpec_not_mem hpr heq]
          simp
        refine ⟨hq1, ?_⟩
        rw [hq1]
        field_simp
        ring
      · have hxp : x ≠ p := fun he => hpr (he ▸ hxr)
        have hx2 := hall x hxr
        simpa [hxp] using hx2

/-- Witness for C2: a one-pair trajectory with visit count 2, old estimate 0
and final reward 1. -/
theorem C2_update_incremental_mean_witness :
    ∃ q', updateSpec twoCount 1
        [({ player := 10, dealer := 5, terminated := false }, Action.hit)] zeroQ = some q' ∧
      ∀ p ∈ [({ player := 10, dealer := 5, terminated := false }, Action.hit)],
        q' p = zeroQ p + (1 / (twoCount p : ℚ)) * (1 - zeroQ p) ∧
        q' p = (((twoCount p : ℚ) - 1) / (twoCount p : ℚ)) * zeroQ p + 1 / (twoCount p : ℚ) :=
  C2_update_incremental_mean twoCount
    [({ player := 10, dealer := 5, terminated := false }, Action.hit)] zeroQ 1
    (by simp) (by simp [twoCount])

end Easy21

namespace Easy21

/-- The episode loop never decreases a state-action visit counter. -/
theorem runLoop_counts_le (acts : Nat → Action) (cards : Nat → Int) :
    ∀ (fuel : Nat) (s : State) (i : Nat) (ns : State → Nat)
      (nsa : State × Action → Nat) (x : State × Action),
      nsa x ≤ (runLoop acts cards fuel s i ns nsa).2.2 x := by
  intro fuel
  induction fuel with
  | zero =>
    intro s i ns nsa x
    exact Nat.le_refl _
  | succ fuel ih =>
    intro s i ns nsa x
    by_cases ht : s.terminated
    · simp [runLoop, ht]
    · cases hq : acts i
      · simp only [runLoop, if_neg ht, hq]
        exact le_trans (by unfold bump; split <;> omega) (ih _ _ _ _ x)
      · simp only [runLoop, if_neg ht, hq]
        unfold bump
        split <;> omega

/-- Every pair in the episode loop's visit history ends with a visit count
of at least 1: its counter is incremented at the moment it is visited and
never decreased afterwards. -/
theorem runLoop_mem_counts (acts : Nat → Action) (cards : Nat → Int) :
    ∀ (fuel : Nat) (s : State) (i : Nat) (ns : State → Nat)
      (nsa : State × Action → Nat),
      ∀ p ∈ (runLoop acts cards fuel s i ns nsa).1,
        1 ≤ (runLoop acts cards fuel s i ns nsa).2.2 p := by
  intro fuel
  induction fuel with
  | zero =>
    intro s i ns nsa p hp
    cases hp
  | succ fuel ih =>
    intro s i ns nsa p hp
    by_cases ht : s.terminated
    · rw [show (runLoop acts cards (fuel + 1) s i ns nsa) = ([], ns, nsa) from by
        simp [runLoop, ht]] at hp
      cases hp
    · cases hq : acts i
      · simp only [runLoop, if_neg ht, hq] at hp ⊢
        rcases List.mem_cons.mp hp with hph | hpt
        · subst hph
          refine le_trans ?_ (runLoop_counts_le acts cards fuel _ _ _ _ _)
          unfold bump
          simp
        · exact ih _ _ _ _ p hpt
      · simp only [runLoop, if_neg ht, hq] at hp ⊢
        rcases List.mem_cons.mp hp with hph | hpt
        · subst hph
          unfold bump
          simp
        · cases hpt

/-- The spec-modelled `update` succeeds (no ZeroDivisionError) whenever
every pair of its trajectory has a positive visit count. -/
theorem updateSpec_isSome {nsa : State × Action → Nat} {r : ℚ} :
    ∀ (traj : List (State × Action)) (q : (State × Action) → ℚ),
      (∀ p ∈ traj, 1 ≤ nsa p) → (updateSpec nsa r traj q).isSome = true := by
  intro traj
  induction traj with
  | nil =>
    intro q _
    rfl
  | cons p rest ih =>
    intro q hc
    have hp0 : nsa p ≠ 0 := by
      have := hc p (List.mem_cons_self p rest)
      omega
    simp only [updateSpec, alpha, hp0, if_false]
    exact ih _ (fun x hx => hc x (List.mem_cons_of_mem p hx))

/-- Claim C7: after any run of the episode loop, every visited pair's
counter `N[(state, action)]` is at least 1 (it is incremented strictly
before the transition), so the spec-modelled `update` — the only place
`alpha` is evaluated — never divides by zero. -/
theorem C7_alpha_safe (acts : Nat → Action) (cards : Nat → Int) (fuel : Nat)
    (s : State) (i : Nat) (ns : State → Nat) (nsa : State × Action → Nat)
    (q : (State × Action) → ℚ) (r : ℚ) :
    (((runLoop acts cards fuel s i ns nsa).1).all
        (fun p => decide (1 ≤ (runLoop acts cards fuel s i ns nsa).2.2 p))) = true ∧
    (updateSpec (runLoop acts cards fuel s i ns nsa).2.2 r
        (runLoop acts cards fuel s i ns nsa).1 q).isSome = true := by
  constructor
  · rw [List.all_eq_true]
    intro p hp
    simpa using runLoop_mem_counts acts cards fuel s i ns nsa p hp
  · exact updateSpec_isSome _ q (runLoop_mem_counts acts cards fuel s i ns nsa)

end Easy21

namespace Easy21

/-- The visit history of the episode loop is empty or starts with the
current state. -/
theorem runLoop_head (acts : Nat → Action) (cards : Nat → Int)
    (fuel : Nat) (s : State) (i : Nat) (ns : State → Nat)
    (nsa : State × Action → Nat) :
    (runLoop acts cards fuel s i ns nsa).1 = [] ∨
    ∃ a rest, (runLoop acts cards fuel s i ns nsa).1 = (s, a) :: rest := by
  cases fuel with
  | zero => exact Or.inl rfl
  | succ fuel =>
    by_cases ht : s.terminated
    · exact Or.inl (by simp [runLoop, ht])
    · cases hq : acts i
      · exact Or.inr ⟨Action.hit,
          (runLoop acts cards fuel (s.hit (cards i)) (i + 1) (bump ns s)
            (bump nsa (s, Action.hit))).1, by simp [runLoop, ht, hq]⟩
      · exact Or.inr ⟨Action.stick, [], by simp [runLoop, ht, hq]⟩

/-- Claim C8 (amended): within one episode the same `(state, action)` pair
never occupies two consecutive trajectory positions — successive visited
states are distinct, because a hit adds a nonzero card to the player's sum
and a stick ends the episode — though a pair may recur at non-adjacent
positions. -/
theorem C8_adjacent_distinct (acts : Nat → Action) (cards : Nat → Int)
    (hcards : ∀ j, isCard (cards j)) :
    ∀ (fuel : Nat) (s : State) (i : Nat) (ns : State → Nat)
      (nsa : State × Action → Nat),
      List.Chain' (fun p q => p.1 ≠ q.1) (runLoop acts cards fuel s i ns nsa).1 := by
  intro fuel
  induction fuel with
  | zero =>
    intro s i ns nsa
    exact List.chain'_nil
  | succ fuel ih =>
    intro s i ns nsa
    by_cases ht : s.terminated
    · simp [runLoop, ht]
    · cases hq : acts i
      · simp only [runLoop, if_neg ht, hq]
        rw [List.chain'_cons']
        refine ⟨?_, ih _ _ _ _⟩
        intro y hy
        rcases runLoop_head acts cards fuel (s.hit (cards i)) (i + 1)
            (bump ns s) (bump nsa (s, Action.hit)) with h0 | ⟨a, rest, h0⟩
        · rw [h0] at hy
          cases hy
        · rw [h0] at hy
          simp only [List.head?_cons, Option.mem_def, Option.some.injEq] at hy
          subst hy
          intro he
          have hpl : s.player = (s.hit (cards i)).player := congrArg State.player he
          rw [State.hit, if_neg ht] at hpl
          have hc := hcards i
          have hcz : cards i ≠ 0 := by
            rcases hc with ⟨h1, _⟩
            intro h
            rw [h] at h1
            simp at h1
          simp only [] at hpl
          omega
      · simp [runLoop, ht, hq]

/-- Witness for the amended C8: a concrete three-hit episode with legal
cards has pairwise-distinct adjacent states. -/
theorem C8_adjacent_distinct_witness :
    List.Chain' (fun p q => p.1 ≠ q.1)
      (runLoop cexActs fiveCards 3 { player := 10, dealer := 5, terminated := false }
        0 zeroS zeroSA).1 :=
  C8_adjacent_distinct cexActs fiveCards (fun _ => (by decide : isCard 5)) 3 _ 0 _ _

/-- Claim C8 (counterexample): the trajectory is NOT always pairwise
distinct — hitting +5 then −5 returns the player to the starting sum, so
the pair `(State(10, 5), hit)` occurs twice in one episode. -/
theorem C8_pair_recurrence_cex :
    ¬ ((runLoop cexActs cexCards 10 { player := 10, dealer := 5, terminated := false }
        0 zeroS zeroSA).1).Nodup := by
  decide

/-- The episode loop of `trial` threads the `states` accumulator through
unchanged: no statement in the loop body modifies it. -/
theorem trialStatesLoop_const (acts : Nat → Action) (cards : Nat → Int) :
    ∀ (fuel : Nat) (s : State) (i : Nat) (acc : List State),
      trialStatesLoop acts cards fuel s i acc = acc := by
  intro fuel
  induction fuel with
  | zero =>
    intro s i acc
    rfl
  | succ fuel ih =>
    intro s i acc
    by_cases ht : s.terminated
    · simp [trialStatesLoop, ht]
    · cases hq : acts i
      · simp only [trialStatesLoop, if_neg ht, hq]
        exact ih _ _ _
      · simp [trialStatesLoop, ht, hq]

/-- Claim C3 (code bug): the trajectory `trial` passes to `update` is always
just `[initial_state]` — the loop never appends a `(state, action)` pair —
even though a concrete two-step episode visits two pairs. -/
theorem C3_trial_as_written :
    (∀ (acts : Nat → Action) (cards : Nat → Int) (fuel : Nat) (s0 : State),
      trialStates acts cards fuel s0 = [s0]) ∧
    (runLoop twoStepActs fiveCards 10 { player := 10, dealer := 5, terminated := false }
        0 zeroS zeroSA).1 =
      [({ player := 10, dealer := 5, terminated := false }, Action.hit),
       ({ player := 15, dealer := 5, terminated := false }, Action.stick)] := by
  constructor
  · intro acts cards fuel s0
    exact trialStatesLoop_const acts cards fuel s0 0 [s0]
  · decide

end Easy21

namespace Easy21

/-- Witness for C6: the concrete initial deal with cards +5 and −7 is a
reachable non-terminal state with both sums in [1, 21]. -/
theorem C6_nonterminal_in_range_witness :
    1 ≤ (State.new 5 (-7)).player ∧ (State.new 5 (-7)).player ≤ 21 ∧
    1 ≤ (State.new 5 (-7)).dealer ∧ (State.new 5 (-7)).dealer ≤ 21 :=
  C6_nonterminal_in_range (State.new 5 (-7))
    (Reachable.new 5 (-7) (by decide) (by decide)) rfl

end Easy21
